import Mathlib

/-!
Verification of the content-repository layer
(`src/lib/server/services/content.ts`) against its natural-language
specification.

The file shallowly embeds the two implementations found in the source:

* the `ContentService` class (string content identifiers, explicit
  transactions): `getContentById`, `getFilteredContent`,
  `getFilteredContentCount`, `addContent`, `updateContent`;
* the standalone store functions (numeric identifiers):
  `create_content`, `update_content`, `delete_content`,
  `update_content_tags`.

SQL statements are embedded as the data the TypeScript code manipulates:
the list of WHERE conditions, the HAVING condition, the parameter list in
push order, and the assembled query text (whitespace normalised to single
spaces).  Query execution against the primary store is not interpreted;
claims about execution short-circuits are stated through an `Option`
result where `none` encodes the early return that happens before any
statement is prepared or run.
-/

set_option linter.unusedVariables false
set_option maxRecDepth 4096

namespace SvelteSociety

/-- A value bound to a SQL placeholder, in push order. -/
inductive Param where
  | str (s : String)
  | num (n : Nat)
  deriving Repr, DecidableEq

/-- The `tags` field accepts a single slug (a bare string) or a list of
slugs, mirroring `tags?: string | string[]`. -/
inductive TagsFilter where
  | one (slug : String)
  | many (slugs : List String)
  deriving Repr, DecidableEq

/-- The filter configuration accepted by `getFilteredContent` and
`getFilteredContentCount`.  `none` stands for an absent optional field of
the TypeScript `ContentFilters` object. -/
structure ContentFilters where
  search : Option String := none
  status : Option String := none
  type : Option String := none
  tags : Option TagsFilter := none
  sort : Option String := none
  limit : Option Nat := none
  offset : Option Nat := none
  deriving Repr, DecidableEq

/-- JavaScript truthiness of an optional string field: `undefined` and the
empty string are falsy, every other string is truthy. -/
def jsTruthyStr : Option String → Bool
  | none => false
  | some s => s != ""

/-- JavaScript truthiness of an optional numeric field: `undefined` and `0`
are falsy (the source guards pagination with `if (filters.limit)`). -/
def jsTruthyNat : Option Nat → Bool
  | none => false
  | some n => n != 0

/-- Model of `s.trim()`: the string with leading and trailing whitespace
removed. -/
def trimStr (s : String) : String :=
  ⟨((s.data.dropWhile Char.isWhitespace).reverse.dropWhile
      Char.isWhitespace).reverse⟩

/-- Truthiness of `filters.search?.trim()`: the search branch runs exactly
when `search` is set and non-blank. -/
def searchActive (f : ContentFilters) : Bool :=
  match f.search with
  | none => false
  | some s => trimStr s != ""

/-- Truthiness of `filters.tags`: `undefined` and a bare empty string are
falsy; an array is always truthy (even when empty). -/
def tagsTruthy : Option TagsFilter → Bool
  | none => false
  | some (.one s) => s != ""
  | some (.many _) => true

/-- The normalisation `Array.isArray(filters.tags) ? filters.tags :
[filters.tags]` performed inside the tags branch. -/
def normTags : Option TagsFilter → List String
  | none => []
  | some (.one s) => [s]
  | some (.many l) => l

/-- The guard of the tags branch: `filters.tags` truthy and the normalised
list non-empty.  When it holds the join fragment and the `IN` condition are
appended. -/
def tagJoinOn (tags : Option TagsFilter) : Bool :=
  tagsTruthy tags && !(normTags tags).isEmpty

/-- The guard of the `GROUP BY` branch: `filters.tags &&
Array.isArray(filters.tags) && filters.tags.length > 1`. -/
def tagsGroupBy : Option TagsFilter → Bool
  | some (.many l) => decide (1 < l.length)
  | _ => false

/-- The placeholder list `"?,?,...,?"` produced by
`xs.map(() => '?').join(',')`. -/
def placeholders (n : Nat) : String :=
  String.intercalate "," (List.replicate n "?")

/-- One entry of the `whereConditions` array, remembering the values whose
placeholders it carries. -/
inductive WhereCond where
  | idIn (ids : List String)
  | statusEq (s : String)
  | statusPublished
  | typeEq (t : String)
  | slugIn (slugs : List String)
  deriving Repr, DecidableEq

/-- The literal SQL fragment the source pushes for each condition. -/
def WhereCond.render : WhereCond → String
  | .idIn ids => "c.id IN (" ++ placeholders ids.length ++ ")"
  | .statusEq _ => "c.status = ?"
  | .statusPublished => "c.status = 'published'"
  | .typeEq _ => "c.type = ?"
  | .slugIn slugs => "t.slug IN (" ++ placeholders slugs.length ++ ")"

/-- The parameters the source pushes together with each condition, in
order. -/
def WhereCond.boundParams : WhereCond → List Param
  | .idIn ids => ids.map Param.str
  | .statusEq s => [Param.str s]
  | .statusPublished => []
  | .typeEq t => [Param.str t]
  | .slugIn slugs => slugs.map Param.str

/-- The observable output of one run of a query builder: the structured
condition lists, the two boolean branch outcomes, the assembled SQL text
and the bound parameters in push order. -/
structure BuiltQuery where
  conds : List WhereCond
  havingCount : Option Nat
  tagJoin : Bool
  groupBy : Bool
  query : String
  params : List Param
  deriving Repr, DecidableEq

/-- The status block, identical in both builders:
`if (filters.status !== 'all') { whereConditions.push(filters.status ?
'c.status = ?' : "c.status = 'published'"); if (filters.status)
params.push(filters.status) }`. -/
def statusConds (status : Option String) : List WhereCond :=
  if status = some "all" then []
  else if jsTruthyStr status then [.statusEq (status.getD "")]
  else [.statusPublished]

/-- The type block: `if (filters.type) { push('c.type = ?');
params.push(filters.type) }`. -/
def typeConds (t : Option String) : List WhereCond :=
  if jsTruthyStr t then [.typeEq (t.getD "")] else []

/-- The tags block of `whereConditions`. -/
def tagConds (tags : Option TagsFilter) : List WhereCond :=
  if tagJoinOn tags then [.slugIn (normTags tags)] else []

/-- The tags block of `havingConditions`: pushed (with the tag count as its
parameter) exactly when the normalised list has more than one element. -/
def tagHaving (tags : Option TagsFilter) : Option Nat :=
  if tagsTruthy tags && decide (1 < (normTags tags).length) then
    some (normTags tags).length
  else none

/-- The join fragment appended to the query inside the tags branch. -/
def tagJoinSql : String :=
  " JOIN content_to_tags ctt ON c.id = ctt.content_id JOIN tags t ON ctt.tag_id = t.id"

/-- The WHERE clause text. -/
def whereSql (conds : List WhereCond) : String :=
  if conds.isEmpty then ""
  else " WHERE " ++ String.intercalate " AND " (conds.map WhereCond.render)

/-- The GROUP BY / HAVING text appended when the grouping branch fires. -/
def groupHavingSql (gb : Bool) (hc : Option Nat) : String :=
  if gb then
    " GROUP BY c.id" ++
      (match hc with
       | some _ => " HAVING COUNT(DISTINCT t.slug) = ?"
       | none => "")
  else ""

/-- The ORDER BY column list: four total orderings, defaulting to latest
for an absent or unknown sort value. -/
def orderBySql (sort : Option String) : String :=
  match sort with
  | some "latest" => "c.published_at DESC, c.created_at DESC"
  | some "oldest" => "c.published_at ASC, c.created_at ASC"
  | some "popular" => "c.likes DESC, c.saves DESC"
  | _ => "c.published_at DESC, c.created_at DESC"

/-- The pagination text: `LIMIT ?` only when `filters.limit` is truthy, and
`OFFSET ?` only additionally when `filters.offset` is truthy. -/
def paginationSql (limit off : Option Nat) : String :=
  if jsTruthyNat limit then
    " LIMIT ?" ++ (if jsTruthyNat off then " OFFSET ?" else "")
  else ""

/-- The pagination parameters, pushed in the same order as the clauses. -/
def paginationParams (limit off : Option Nat) : List Param :=
  if jsTruthyNat limit then
    Param.num (limit.getD 0) ::
      (if jsTruthyNat off then [Param.num (off.getD 0)] else [])
  else []

/-- The full `whereConditions` array, identical in both builders: the
search block (only reached when the search branch is active), then the
status, type and tags blocks, in source order. -/
def buildConds (f : ContentFilters) (contentIds : List String) : List WhereCond :=
  (if searchActive f then [WhereCond.idIn contentIds] else [])
    ++ statusConds f.status ++ typeConds f.type ++ tagConds f.tags

/-- The parameter list shared by both builders: the parameters of each
WHERE condition in push order, then the tag count pushed with the HAVING
condition. -/
def buildParams (conds : List WhereCond) (hc : Option Nat) : List Param :=
  (conds.map WhereCond.boundParams).flatten
    ++ (match hc with | some n => [Param.num n] | none => [])

/-- The SQL text of the list query, assembled exactly as the source does:
header, optional join, WHERE, optional GROUP BY / HAVING, ORDER BY,
optional pagination. -/
def listSql (f : ContentFilters) (contentIds : List String) : String :=
  "SELECT DISTINCT c.id FROM content c"
    ++ (if tagJoinOn f.tags then tagJoinSql else "")
    ++ whereSql (buildConds f contentIds)
    ++ groupHavingSql (tagsGroupBy f.tags) (tagHaving f.tags)
    ++ " ORDER BY " ++ orderBySql f.sort
    ++ paginationSql f.limit f.offset

/-- The SQL text of the count query: header, optional join, WHERE,
optional GROUP BY / HAVING; when the grouping branch fires the whole query
is wrapped in `SELECT COUNT(*) as total FROM (...)`. -/
def countSql (f : ContentFilters) (contentIds : List String) : String :=
  let inner :=
    "SELECT COUNT(DISTINCT c.id) as total FROM content c"
      ++ (if tagJoinOn f.tags then tagJoinSql else "")
      ++ whereSql (buildConds f contentIds)
      ++ groupHavingSql (tagsGroupBy f.tags) (tagHaving f.tags)
  if tagsGroupBy f.tags then "SELECT COUNT(*) as total FROM (" ++ inner ++ ")"
  else inner

/-- Function `getFilteredContent` up to (and excluding) execution of the built SQL.
`contentIds` is the candidate set returned by the search adapter for the
trimmed search text; the source only consults it when the search branch is
active.  `none` encodes the early `return []` taken when the search branch
is active and the candidate set is empty — it happens before any statement
is prepared, so no query reaches the primary store. -/
def getFilteredContentBuild (f : ContentFilters) (contentIds : List String) :
    Option BuiltQuery :=
  if searchActive f && contentIds.isEmpty then none
  else
    some ⟨buildConds f contentIds, tagHaving f.tags, tagJoinOn f.tags,
          tagsGroupBy f.tags, listSql f contentIds,
          buildParams (buildConds f contentIds) (tagHaving f.tags)
            ++ paginationParams f.limit f.offset⟩

/-- Function `getFilteredContentCount` up to execution.  `none` encodes the early
`return 0` taken when the search branch is active and the candidate set is
empty.  The count variant pushes no pagination parameters. -/
def getFilteredContentCountBuild (f : ContentFilters) (contentIds : List String) :
    Option BuiltQuery :=
  if searchActive f && contentIds.isEmpty then none
  else
    some ⟨buildConds f contentIds, tagHaving f.tags, tagJoinOn f.tags,
          tagsGroupBy f.tags, countSql f contentIds,
          buildParams (buildConds f contentIds) (tagHaving f.tags)⟩

/-! ## Content aggregate assembler (`ContentService.getContentById`) -/

/-- A tag row. -/
structure Tag where
  id : Nat
  name : String
  slug : String
  deriving Repr, DecidableEq

/-- The stored `children` column of a content row, together with the
outcome of `JSON.parse` on it.  The source first checks
`typeof content.children === 'string'` and then parses; a parse failure is
caught, a parse to anything other than a non-empty array leaves the field
untouched. -/
inductive StoredChildren where
  /-- The column is not a string (e.g. NULL). -/
  | notString
  /-- A string holding a JSON array of identifiers. -/
  | listStr (ids : List String)
  /-- A string holding valid JSON that is not an array. -/
  | otherJson
  /-- A string on which `JSON.parse` throws. -/
  | invalid
  deriving Repr, DecidableEq

/-- A row of the `content` table as read by `SELECT * FROM content`. -/
structure ContentRow where
  id : String
  title : String
  slug : String
  description : String
  type : String
  status : String
  body : String
  children : StoredChildren
  created_at : String
  updated_at : String
  published_at : Option String
  likes : Nat
  saves : Nat
  deriving Repr, DecidableEq

/-- The relational state the `ContentService` read path sees: the `content`
and `tags` tables and the `content_to_tags` association (content id, tag
id). -/
structure DB where
  content : List ContentRow
  tags : List Tag
  content_to_tags : List (String × Nat)
  deriving Repr, DecidableEq

/-- The tags query `SELECT t.* FROM tags t JOIN content_to_tags ctt ON
t.id = ctt.tag_id WHERE ctt.content_id = ?`.  Row order is whatever the
store returns; the model fixes association order, which the claims never
rely on. -/
def tagsFor (db : DB) (cid : String) : List Tag :=
  (db.content_to_tags.filter (fun p => p.1 == cid)).filterMap
    (fun p => db.tags.find? (fun t => t.id == p.2))

mutual
/-- A hydrated content aggregate: the row, its tags, and its `children`
field after `getContentById` has processed it. -/
inductive Aggregate where
  | mk (row : ContentRow) (tags : List Tag) (children : ChildrenVal) : Aggregate

/-- The `children` field of a returned aggregate: either the stored column
value left untouched, or a JavaScript array of child aggregates. -/
inductive ChildrenVal where
  | stored (c : StoredChildren)
  | resolved (cs : List Aggregate)
end

def Aggregate.row : Aggregate → ContentRow
  | .mk r _ _ => r

def Aggregate.tags : Aggregate → List Tag
  | .mk _ t _ => t

def Aggregate.children : Aggregate → ChildrenVal
  | .mk _ _ c => c

/-- The body of the per-child loop: load the child row by id; when it
exists, attach its tags and assign it an empty children array; a child id
that does not resolve is skipped. -/
def hydrateChild (db : DB) (childId : String) : Option Aggregate :=
  match db.content.find? (fun c => c.id == childId) with
  | none => none
  | some row => some (.mk row (tagsFor db childId) (.resolved []))

/-- One event observable at the store boundary during
`getContentById`. -/
inductive DbEvent where
  | beginTx
  | commitTx
  | rollbackTx
  | queryContentRow (id : String)
  | queryTags (id : String)
  deriving Repr, DecidableEq

/-- The store events of the per-child loop, in order. -/
def childEvents (db : DB) (ids : List String) : List DbEvent :=
  ids.flatMap (fun cid =>
    DbEvent.queryContentRow cid ::
      (if (db.content.find? (fun c => c.id == cid)).isSome then
        [DbEvent.queryTags cid]
      else []))

/-- The collection branch of `getContentById` (lines 48–96): for a
collection whose `children` column is a string parsing to a non-empty
array, each child id is resolved in order through the per-child loop; a
parse failure is caught and yields an empty children array; a string
parsing to a non-array or to an empty array leaves the stored value in
place, as does any children value on a non-collection row.  Returns the
store events of the branch and the resulting children field. -/
def resolveChildren (db : DB) (row : ContentRow) : List DbEvent × ChildrenVal :=
  if row.type = "collection" then
    match row.children with
    | .listStr ids =>
      if ids.isEmpty then ([], .stored row.children)
      else (childEvents db ids, .resolved (ids.filterMap (hydrateChild db)))
    | .invalid => ([], .resolved [])
    | c => ([], .stored c)
  else ([], .stored row.children)

/-- Method `ContentService.getContentById`, returning both the ordered list of
store events it issues and its result.  A falsy id (the empty string) is
rejected before the transaction is opened; an absent row rolls back and
returns null; otherwise the row is loaded, its tags attached, and its
children field produced by the collection branch. -/
def getContentByIdRun (db : DB) (id : String) : List DbEvent × Option Aggregate :=
  if id = "" then ([], none)
  else
    match db.content.find? (fun c => c.id == id) with
    | none => ([.beginTx, .queryContentRow id, .rollbackTx], none)
    | some row =>
      ([.beginTx, .queryContentRow id, .queryTags id]
         ++ (resolveChildren db row).1 ++ [.commitTx],
       some (.mk row (tagsFor db id) (resolveChildren db row).2))

/-- Function `getContentById` as used by callers: the result alone. -/
def getContentById (db : DB) (id : String) : Option Aggregate :=
  (getContentByIdRun db id).2

/-- Lines 196–200 of the source: execute the built id query, hydrate each
returned id through `getContentById`, and keep the non-null results. -/
def getFilteredContentHydrate (db : DB) (ids : List String) : List Aggregate :=
  (ids.map (fun i => getContentById db i)).filterMap (fun x => x)

/-! ## Mutation operations of the `ContentService` class -/

/-- The input object of `addContent` and `updateContent`. -/
structure ContentData where
  title : String
  slug : String
  description : String
  type : String
  status : String
  body : String
  tags : List String
  deriving Repr, DecidableEq

/-- The row inserted by `addContent`: both timestamps are the current
time, `published_at` is the current time exactly when the supplied status
is `'published'` and NULL otherwise, counters start at zero, and the
`children` column is absent from the INSERT column list (NULL). -/
def addContentRow (d : ContentData) (id : String) (now : String) : ContentRow :=
  { id := id
    title := d.title
    slug := d.slug
    description := d.description
    type := d.type
    status := d.status
    body := d.body
    children := .notString
    created_at := now
    updated_at := now
    published_at := if d.status = "published" then some now else none
    likes := 0
    saves := 0 }

/-- The row produced by `updateContent`'s UPDATE statement on an existing
row.  Unqualified column references in the SET expressions read the old
row, so the CASE compares the old status with the new one: transition to
published stamps the current time, transition away clears the column, and
otherwise the stored value is kept. -/
def updateContentRow (old : ContentRow) (d : ContentData) (now : String) :
    ContentRow :=
  { old with
    title := d.title
    slug := d.slug
    description := d.description
    type := d.type
    status := d.status
    body := d.body
    updated_at := now
    published_at :=
      if old.status ≠ "published" ∧ d.status = "published" then some now
      else if old.status = "published" ∧ d.status ≠ "published" then none
      else old.published_at }

/-- The `published_at` invariant stated by the specification. -/
def pubInv (r : ContentRow) : Prop :=
  r.published_at ≠ none ↔ r.status = "published"

/-- Trace of one tag-association replacement over `(content_id, tag_id)`
pairs with string ids (the `ContentService` path). -/
structure TagTraceS where
  deleted : List (String × String)
  inserted : List (String × String)
  final : List (String × String)
  deriving Repr, DecidableEq

/-- Lines 413–425 of the source (`updateContent`): delete every existing
association of the content id, then insert one pair per supplied tag. -/
def updateContentReplaceTags (assoc : List (String × String)) (id : String)
    (tags : List String) : TagTraceS :=
  let deleted := assoc.filter (fun p => p.1 == id)
  let kept := assoc.filter (fun p => p.1 != id)
  let inserted := tags.map (fun t => (id, t))
  ⟨deleted, inserted, kept ++ inserted⟩

/-! ## Standalone store functions (numeric identifiers) -/

/-- The input object of `create_content` and `update_content`.  `children`
and `metadata` are carried as the already-serialised column values. -/
structure ContentInput where
  title : String
  type : String
  status : Option String := none
  body : Option String := none
  rendered_body : Option String := none
  slug : String
  description : Option String := none
  metadata : Option String := none
  children : Option (List Nat) := none
  tags : Option (List Nat) := none
  deriving Repr, DecidableEq

/-- A row of the `content` table as written by the standalone functions
(numeric surrogate key).  `status` is nullable because `update_content`
binds whatever the input carries, including `undefined`. -/
structure ContentRowN where
  id : Nat
  title : String
  type : String
  status : Option String
  body : Option String
  rendered_body : Option String
  slug : String
  description : Option String
  metadata : Option String
  children : Option (List Nat)
  created_at : String
  updated_at : String
  published_at : Option String
  likes : Nat
  saves : Nat
  deriving Repr, DecidableEq

/-- The row inserted by `create_content`: the INSERT column list is
title, type, status, body, rendered_body, slug, description, metadata,
children, created_at, updated_at.  `published_at` is not among the
inserted columns, so the new row stores NULL there whatever the supplied
status is; the status defaults to draft.  Counters take their schema
defaults. -/
def create_content_row (i : ContentInput) (rowid : Nat) (now : String) :
    ContentRowN :=
  { id := rowid
    title := i.title
    type := i.type
    status := some (i.status.getD "draft")
    body := i.body
    rendered_body := i.rendered_body
    slug := i.slug
    description := i.description
    metadata := i.metadata
    children := i.children
    created_at := now
    updated_at := now
    published_at := none
    likes := 0
    saves := 0 }

/-- The row produced by `update_content`'s UPDATE statement: the SET list
is title, type, status, body, rendered_body, slug, description, metadata,
children, updated_at.  `published_at` is not in the SET list, so the
stored value is carried over unchanged whatever the status transition
is. -/
def update_content_row (old : ContentRowN) (i : ContentInput) (now : String) :
    ContentRowN :=
  { old with
    title := i.title
    type := i.type
    status := i.status
    body := i.body
    rendered_body := i.rendered_body
    slug := i.slug
    description := i.description
    metadata := i.metadata
    children := i.children
    updated_at := now }

/-- Trace of one run of `update_content_tags` over `(content_id, tag_id)`
pairs with numeric ids. -/
structure TagTraceN where
  deleted : List (Nat × Nat)
  inserted : List (Nat × Nat)
  final : List (Nat × Nat)
  deriving Repr, DecidableEq

/-- Function `update_content_tags` (lines 1007–1027): first
`DELETE FROM content_to_tags WHERE content_id = @contentId AND tag_id NOT
IN (tags)`, then `INSERT INTO content_to_tags SELECT @contentId, tags.id
FROM tags WHERE tags.id IN (tags) ON CONFLICT DO NOTHING`.  `tagsTable`
is the id column of the `tags` table in scan order; the conflict target is
the uniqueness of the association pair, so an insert is skipped when the
pair survived the delete. -/
def update_content_tags (tagsTable : List Nat) (assoc : List (Nat × Nat))
    (contentId : Nat) (tags : List Nat) : TagTraceN :=
  let deleted := assoc.filter (fun p => p.1 == contentId && !(tags.contains p.2))
  let kept := assoc.filter (fun p => !(p.1 == contentId && !(tags.contains p.2)))
  let inserted :=
    (tagsTable.filter (fun t => tags.contains t)).filterMap
      (fun t => if kept.contains (contentId, t) then none else some (contentId, t))
  ⟨deleted, inserted, kept ++ inserted⟩

/-! ## Exception behaviour of the mutation entry points

Each prepared-statement run is represented by its outcome, `Except.error`
standing for a store-level exception raised by the run.  A mutation entry
point is itself an `Except` value: `Except.ok` means the call returns
normally (with the value the caller sees), `Except.error` means the
exception escapes the function. -/

/-- A `try { ... } catch { return fallback }` block. -/
def catchAll {α : Type} (act : Except String α) (fallback : α) :
    Except String α :=
  match act with
  | .ok a => .ok a
  | .error _ => .ok fallback

/-- Function `update_content_tags`: both runs sit inside a `try` whose `catch` only
logs, so the caller always gets a normal (unit) return. -/
def update_content_tags_run (removeRun insertRun : Except String Unit) :
    Except String Unit :=
  catchAll (do removeRun; insertRun) ()

/-- Function `delete_content`: the run sits inside a `try`; on success the call
returns whether any row was deleted, on a store error it returns false. -/
def delete_content_run (runChanges : Except String Nat) :
    Except String Bool :=
  catchAll (do let changes ← runChanges; pure (decide (0 < changes))) false

/-- Function `create_content`: the INSERT run and the tag replacement sit inside a
`try`; on success the new rowid is returned, on a store error null. -/
def create_content_run (insertRun : Except String Nat)
    (removeRun insertTagsRun : Except String Unit) :
    Except String (Option Nat) :=
  catchAll
    (do let rowid ← insertRun
        let _ ← update_content_tags_run removeRun insertTagsRun
        pure (some rowid))
    none

/-- Function `update_content`: the UPDATE run and the tag replacement sit inside a
`try`; on success the call reports whether a row changed, on a store error
false. -/
def update_content_run (updateRun : Except String Nat)
    (removeRun insertTagsRun : Except String Unit) :
    Except String Bool :=
  catchAll
    (do let changes ← updateRun
        let _ ← update_content_tags_run removeRun insertTagsRun
        pure (decide (0 < changes)))
    false

/-- Method `ContentService.addContent` (lines 311–362): the INSERT run and the
per-tag INSERT runs are not wrapped in any try/catch, so a store error
escapes to the caller; on success the generated id is returned. -/
def addContent_run (insertRun : Except String Unit)
    (tagRuns : List (Except String Unit)) (id : String) :
    Except String String := do
  insertRun
  let _ ← tagRuns.mapM (fun r => r)
  pure id

/-- Method `ContentService.updateContent` (lines 364–426): the UPDATE run, the
association DELETE run and the per-tag INSERT runs are not wrapped in any
try/catch, so a store error escapes to the caller. -/
def updateContent_run (updateRun deleteRun : Except String Unit)
    (tagRuns : List (Except String Unit)) : Except String Unit := do
  updateRun
  deleteRun
  let _ ← tagRuns.mapM (fun r => r)
  pure ()

/-! ## Helper lemmas -/

theorem length_filterMap_eq_length_filter {α β : Type} (f : α → Option β)
    (l : List α) :
    (l.filterMap f).length = (l.filter (fun x => (f x).isSome)).length := by
  induction l with
  | nil => rfl
  | cons x xs ih =>
    cases h : f x <;> simp [List.filterMap_cons, List.filter_cons, h, ih]

theorem length_filterMap_le {α β : Type} (f : α → Option β) (l : List α) :
    (l.filterMap f).length ≤ l.length := by
  induction l with
  | nil => exact Nat.le_refl 0
  | cons x xs ih =>
    cases h : f x <;> simp [List.filterMap_cons, h] <;> omega

/-- When a hydration function returns aggregates keyed by the requested
id, mapping the row id over the hydrated list recovers exactly the
resolvable ids, in their original relative order. -/
theorem map_rowid_filterMap (f : String → Option Aggregate)
    (hf : ∀ c a, f c = some a → a.row.id = c) (l : List String) :
    (l.filterMap f).map (fun a => a.row.id) =
      l.filter (fun c => (f c).isSome) := by
  induction l with
  | nil => rfl
  | cons x xs ih =>
    cases h : f x with
    | none => simp [List.filterMap_cons, List.filter_cons, h, ih]
    | some a => simp [List.filterMap_cons, List.filter_cons, h, ih, hf x a h]

/-- Any aggregate `getContentById` returns was looked up under its own row
id. -/
theorem getContentById_row_id {db : DB} {i : String} {a : Aggregate}
    (h : getContentById db i = some a) : a.row.id = i := by
  unfold getContentById getContentByIdRun at h
  by_cases hi : i = ""
  · simp [hi] at h
  · rw [if_neg hi] at h
    cases hf : db.content.find? (fun c => c.id == i) with
    | none => rw [hf] at h; simp at h
    | some row =>
      rw [hf] at h
      simp only [Option.some.injEq] at h
      have hrow : row.id = i := by
        have := List.find?_some hf
        simpa using this
      rw [← h]
      simpa [Aggregate.row] using hrow

/-! ## Claim C9 -/

/-- Claim C9: for every falsy content identifier (the empty string),
`getContentById` returns null immediately, issuing no store event at all —
in particular it opens no transaction and runs no query. -/
theorem getContentById_falsy_id (db : DB) (id : String) (h : id = "") :
    getContentByIdRun db id = ([], none) := by
  subst h; rfl

theorem getContentById_falsy_id_witness :
    ("" : String) = "" ∧ getContentByIdRun ⟨[], [], []⟩ "" = ([], none) :=
  ⟨rfl, getContentById_falsy_id ⟨[], [], []⟩ "" rfl⟩

/-! ## Claim C10 -/

/-- Claim C10: every element of the list `getFilteredContent` returns is a
non-null aggregate obtained by hydrating one of the matched ids; ids whose
hydration yields null are dropped, so the result can be shorter than the
matched id list; the surviving aggregates keep the order in which the
query returned their ids. -/
theorem getFilteredContent_hydration (db : DB) (ids : List String) :
    getFilteredContentHydrate db ids = ids.filterMap (getContentById db)
    ∧ (∀ a ∈ getFilteredContentHydrate db ids,
        ∃ i ∈ ids, getContentById db i = some a)
    ∧ (getFilteredContentHydrate db ids).length =
        (ids.filter (fun i => (getContentById db i).isSome)).length
    ∧ (getFilteredContentHydrate db ids).length ≤ ids.length
    ∧ (getFilteredContentHydrate db ids).map (fun a => a.row.id) =
        ids.filter (fun i => (getContentById db i).isSome) := by
  have he : getFilteredContentHydrate db ids = ids.filterMap (getContentById db) := by
    unfold getFilteredContentHydrate
    rw [List.filterMap_map]
    rfl
  refine ⟨he, ?_, ?_, ?_, ?_⟩
  · intro a ha
    rw [he] at ha
    rcases List.mem_filterMap.mp ha with ⟨i, hi, hfi⟩
    exact ⟨i, hi, hfi⟩
  · rw [he]; exact length_filterMap_eq_length_filter _ _
  · rw [he]; exact length_filterMap_le _ _
  · rw [he]
    exact map_rowid_filterMap _ (fun c a h => getContentById_row_id h) ids

/-! ## Claim C8 -/

/-- Claim C8 counterexample: `ContentService.addContent` wraps its INSERT
runs in no try/catch, so a store-level failure raised during the content
INSERT escapes the call as an exception instead of being reported as a
boolean or empty result. -/
theorem addContent_propagates_cex :
    addContent_run (.error "db failure") [] "id1" =
      Except.error "db failure" := rfl

/-- Claim C8 amended: the standalone mutation operations
(`delete_content`, `create_content`, `update_content`,
`update_content_tags`) catch every store-level failure raised by their
statement runs and report a boolean / null / silent outcome; the
`ContentService` mutation entry points (`addContent`, `updateContent`)
have no try/catch and propagate a failing first run as an exception. -/
theorem mutation_error_outcomes :
    (∀ r, ∃ b, delete_content_run r = .ok b)
    ∧ (∀ i rm it, ∃ v, create_content_run i rm it = .ok v)
    ∧ (∀ u rm it, ∃ b, update_content_run u rm it = .ok b)
    ∧ (∀ rm it, update_content_tags_run rm it = .ok ())
    ∧ (∀ e tagRuns id, addContent_run (.error e) tagRuns id = .error e)
    ∧ (∀ e del tagRuns, updateContent_run (.error e) del tagRuns = .error e) := by
  refine ⟨?_, ?_, ?_, ?_, ?_, ?_⟩
  · intro r
    cases r <;> exact ⟨_, rfl⟩
  · intro i rm it
    cases i <;> cases rm <;> cases it <;> exact ⟨_, rfl⟩
  · intro u rm it
    cases u <;> cases rm <;> cases it <;> exact ⟨_, rfl⟩
  · intro rm it
    cases rm <;> cases it <;> rfl
  · intro e tagRuns id
    rfl
  · intro e del tagRuns
    rfl

/-! ## Claim C3 -/

/-- A concrete draft row of the numeric-id implementation. -/
def draftRowN : ContentRowN :=
  { id := 1
    title := "t"
    type := "article"
    status := some "draft"
    body := none
    rendered_body := none
    slug := "s"
    description := none
    metadata := none
    children := none
    created_at := "2024-01-01"
    updated_at := "2024-01-01"
    published_at := none
    likes := 0
    saves := 0 }

/-- A concrete input publishing that row. -/
def publishInputN : ContentInput :=
  { title := "t", type := "article", status := some "published", slug := "s" }

/-- Claim C3 counterexample: in the standalone implementation,
`update_content` applied to a draft row with a published status — a
transition from non-published to published — leaves `published_at` NULL
instead of setting it to the update time, and `create_content` with
status published also stores NULL, so the `published_at` invariant does
not hold for that implementation. -/
theorem update_content_published_at_cex :
    (update_content_row draftRowN publishInputN "2024-01-02").status =
        some "published"
    ∧ (update_content_row draftRowN publishInputN "2024-01-02").published_at =
        none
    ∧ (create_content_row publishInputN 2 "2024-01-02").status =
        some "published"
    ∧ (create_content_row publishInputN 2 "2024-01-02").published_at = none :=
  ⟨rfl, rfl, rfl, rfl⟩

/-- Claim C3 amended: the `published_at` invariant (non-null iff status is
published; transition to published stamps the time, transition away
clears it, a status-preserving update keeps the stored value) holds for
the `ContentService` implementation (`addContent` / `updateContent`); the
standalone implementation does not maintain it: `create_content` always
inserts NULL whatever the supplied status, and `update_content` never
touches the stored `published_at`. -/
theorem published_at_invariant :
    (∀ d id now, pubInv (addContentRow d id now))
    ∧ (∀ (old : ContentRow) d now,
        (old.status ≠ "published" → d.status = "published" →
          (updateContentRow old d now).published_at = some now)
        ∧ (old.status = "published" → d.status ≠ "published" →
          (updateContentRow old d now).published_at = none)
        ∧ (d.status = old.status →
          (updateContentRow old d now).published_at = old.published_at)
        ∧ (pubInv old → pubInv (updateContentRow old d now)))
    ∧ (∀ i rowid now, (create_content_row i rowid now).published_at = none)
    ∧ (∀ old i now, (update_content_row old i now).published_at =
        old.published_at) := by
  refine ⟨?_, ?_, ?_, ?_⟩
  · intro d id now
    unfold pubInv addContentRow
    by_cases h : d.status = "published" <;> simp [h]
  · intro old d now
    refine ⟨?_, ?_, ?_, ?_⟩
    · intro h1 h2
      simp [updateContentRow, h1, h2]
    · intro h1 h2
      simp [updateContentRow, h1, h2]
    · intro h
      unfold updateContentRow
      by_cases hp : old.status = "published" <;> simp [h, hp]
    · intro hinv
      unfold pubInv updateContentRow at *
      by_cases ho : old.status = "published" <;>
        by_cases hd : d.status = "published" <;>
        simp [ho, hd] at * <;> tauto
  · intro i rowid now
    rfl
  · intro old i now
    rfl

theorem published_at_invariant_witness :
    pubInv (addContentRow
      { title := "t", slug := "s", description := "", type := "article",
        status := "published", body := "", tags := [] } "id1" "2024-01-01")
    ∧ (updateContentRow
        { id := "id1", title := "t", slug := "s", description := "",
          type := "article", status := "draft", body := "",
          children := .notString, created_at := "2024-01-01",
          updated_at := "2024-01-01", published_at := none, likes := 0,
          saves := 0 }
        { title := "t", slug := "s", description := "", type := "article",
          status := "published", body := "", tags := [] }
        "2024-01-02").published_at = some "2024-01-02" :=
  ⟨published_at_invariant.1 _ "id1" "2024-01-01",
   (published_at_invariant.2.1 _ _ "2024-01-02").1 (by decide) rfl⟩

/-! ## Claim C4 -/

/-- Claim C4 counterexample: `ContentService.updateContent` replaces tag
associations by deleting every existing pair of the content id and then
re-inserting the new ones, so a pair present in both the old and the new
set — here `("c", "t1")` — is deleted and re-inserted, contrary to the
claim that such pairs are left untouched on every content update. -/
theorem updateContent_blind_replace_cex :
    ("c", "t1") ∈ (updateContentReplaceTags [("c", "t1")] "c" ["t1"]).deleted
    ∧ ("c", "t1") ∈ (updateContentReplaceTags [("c", "t1")] "c" ["t1"]).inserted := by
  decide

/-- Claim C4 amended: the standalone replacement `update_content_tags`
(used by `create_content` / `update_content`) is an upsert-and-prune:
afterwards exactly the new tag set is associated with the content id,
pairs in both the old and the new set are neither deleted nor
re-inserted, and pairs of unrelated content are unchanged.  The
`ContentService.updateContent` replacement also ends with exactly the new
set and leaves unrelated content unchanged, but it is a blind
delete-and-insert: pairs in both sets are deleted and re-inserted. -/
theorem tag_replacement_upsert_prune (tagsTable : List Nat)
    (assoc : List (Nat × Nat)) (contentId : Nat) (tags : List Nat)
    (htags : ∀ t ∈ tags, t ∈ tagsTable)
    (assocS : List (String × String)) (id : String) (tagsS : List String) :
    (∀ t, (contentId, t) ∈ (update_content_tags tagsTable assoc contentId tags).final
        ↔ t ∈ tags)
    ∧ (∀ t, t ∈ tags → (contentId, t) ∈ assoc →
        (contentId, t) ∉ (update_content_tags tagsTable assoc contentId tags).deleted
        ∧ (contentId, t) ∉ (update_content_tags tagsTable assoc contentId tags).inserted)
    ∧ (∀ p : Nat × Nat, p.1 ≠ contentId →
        (p ∈ (update_content_tags tagsTable assoc contentId tags).final ↔ p ∈ assoc))
    ∧ (∀ t, (id, t) ∈ (updateContentReplaceTags assocS id tagsS).final ↔ t ∈ tagsS)
    ∧ (∀ p : String × String, p.1 ≠ id →
        (p ∈ (updateContentReplaceTags assocS id tagsS).final ↔ p ∈ assocS))
    ∧ (∀ t, t ∈ tagsS → (id, t) ∈ assocS →
        (id, t) ∈ (updateContentReplaceTags assocS id tagsS).deleted
        ∧ (id, t) ∈ (updateContentReplaceTags assocS id tagsS).inserted) := by
  refine ⟨?_, ?_, ?_, ?_, ?_, ?_⟩
  · intro t
    simp only [update_content_tags, List.mem_append]
    constructor
    · rintro (hk | hi)
      · rcases List.mem_filter.mp hk with ⟨hmem, hp⟩
        simpa using hp
      · rcases List.mem_filterMap.mp hi with ⟨t', ht', hsome⟩
        rcases List.mem_filter.mp ht' with ⟨htab, hcont⟩
        by_cases hc : (assoc.filter
            (fun p => !(p.1 == contentId && !(tags.contains p.2)))).contains (contentId, t') = true
        · rw [if_pos hc] at hsome; cases hsome
        · rw [if_neg hc] at hsome
          have ht'' : t' = t := by simpa using hsome
          subst ht''
          simpa using hcont
    · intro ht
      by_cases hk : (contentId, t) ∈ assoc.filter
          (fun p => !(p.1 == contentId && !(tags.contains p.2)))
      · exact Or.inl hk
      · refine Or.inr (List.mem_filterMap.mpr ⟨t, ?_, ?_⟩)
        · exact List.mem_filter.mpr ⟨htags t ht, by simpa using ht⟩
        · rw [if_neg ?_]
          intro hc
          exact hk (by simpa using hc)
  · intro t ht hmem
    constructor
    · intro hd
      simp only [update_content_tags] at hd
      rcases List.mem_filter.mp hd with ⟨_, hp⟩
      simp [ht] at hp
    · intro hi
      simp only [update_content_tags] at hi
      rcases List.mem_filterMap.mp hi with ⟨t', ht', hsome⟩
      have hkept : (contentId, t) ∈ assoc.filter
          (fun p => !(p.1 == contentId && !(tags.contains p.2))) :=
        List.mem_filter.mpr ⟨hmem, by simpa using ht⟩
      by_cases hc : (assoc.filter
          (fun p => !(p.1 == contentId && !(tags.contains p.2)))).contains (contentId, t') = true
      · rw [if_pos hc] at hsome; cases hsome
      · rw [if_neg hc] at hsome
        have ht'' : t' = t := by simpa using hsome
        subst ht''
        exact hc (by simpa using hkept)
  · intro p hp
    simp only [update_content_tags, List.mem_append]
    constructor
    · rintro (hk | hi)
      · exact (List.mem_filter.mp hk).1
      · rcases List.mem_filterMap.mp hi with ⟨t', _, hsome⟩
        by_cases hc : (assoc.filter
            (fun q => !(q.1 == contentId && !(tags.contains q.2)))).contains (contentId, t') = true
        · rw [if_pos hc] at hsome; cases hsome
        · rw [if_neg hc] at hsome
          have hp1 : (contentId, t') = p := by simpa using hsome
          exact absurd (by rw [← hp1]) hp
    · intro hmem
      refine Or.inl (List.mem_filter.mpr ⟨hmem, ?_⟩)
      simp [hp]
  · intro t
    simp only [updateContentReplaceTags, List.mem_append]
    constructor
    · rintro (hk | hi)
      · rcases List.mem_filter.mp hk with ⟨_, hp⟩
        simp at hp
      · rcases List.mem_map.mp hi with ⟨t', ht', heq⟩
        have ht'' : t' = t := by simpa using heq
        exact ht'' ▸ ht'
    · intro ht
      exact Or.inr (List.mem_map.mpr ⟨t, ht, rfl⟩)
  · intro p hp
    simp only [updateContentReplaceTags, List.mem_append]
    constructor
    · rintro (hk | hi)
      · exact (List.mem_filter.mp hk).1
      · rcases List.mem_map.mp hi with ⟨t', _, heq⟩
        exact absurd (by rw [← heq]) hp
    · intro hmem
      refine Or.inl (List.mem_filter.mpr ⟨hmem, ?_⟩)
      simp [hp]
  · intro t ht hmem
    constructor
    · exact List.mem_filter.mpr ⟨hmem, by simp⟩
    · exact List.mem_map.mpr ⟨t, ht, rfl⟩

theorem tag_replacement_upsert_prune_witness :
    (7, 4) ∈ (update_content_tags [1, 2, 3, 4]
        [(7, 1), (7, 2), (7, 3), (8, 1)] 7 [2, 3, 4]).final
    ∧ (7, 2) ∉ (update_content_tags [1, 2, 3, 4]
        [(7, 1), (7, 2), (7, 3), (8, 1)] 7 [2, 3, 4]).deleted := by
  have h := tag_replacement_upsert_prune [1, 2, 3, 4]
    [(7, 1), (7, 2), (7, 3), (8, 1)] 7 [2, 3, 4] (by decide)
    [("c", "t1")] "c" ["t1"]
  exact ⟨(h.1 4).mpr (by decide), (h.2.1 2 (by decide) (by decide)).1⟩

/-! ## Claim C5 -/

/-- Claim C5: when the search filter is set and non-blank, an empty
candidate set from the search adapter short-circuits both builders before
any statement reaches the primary store (`none` result: the list call
returns `[]`, the count call returns `0`); a non-empty candidate set makes
both built queries carry the `c.id IN (...)` constraint over exactly the
candidate ids. -/
theorem search_short_circuit (f : ContentFilters) (ids : List String)
    (h : searchActive f = true) :
    (ids = [] → getFilteredContentBuild f ids = none
       ∧ getFilteredContentCountBuild f ids = none)
    ∧ (ids ≠ [] →
       (∃ bq, getFilteredContentBuild f ids = some bq
          ∧ WhereCond.idIn ids ∈ bq.conds)
       ∧ (∃ bqc, getFilteredContentCountBuild f ids = some bqc
          ∧ WhereCond.idIn ids ∈ bqc.conds)) := by
  constructor
  · intro he
    subst he
    constructor
    · unfold getFilteredContentBuild
      rw [h]
      rfl
    · unfold getFilteredContentCountBuild
      rw [h]
      rfl
  · intro hne
    have hie : ids.isEmpty = false := by
      cases ids with
      | nil => exact absurd rfl hne
      | cons a l => rfl
    have hmem : WhereCond.idIn ids ∈ buildConds f ids := by
      simp [buildConds, h]
    constructor
    · refine ⟨⟨buildConds f ids, tagHaving f.tags, tagJoinOn f.tags,
          tagsGroupBy f.tags, listSql f ids,
          buildParams (buildConds f ids) (tagHaving f.tags)
            ++ paginationParams f.limit f.offset⟩, ?_, hmem⟩
      simp [getFilteredContentBuild, h, hie]
    · refine ⟨⟨buildConds f ids, tagHaving f.tags, tagJoinOn f.tags,
          tagsGroupBy f.tags, countSql f ids,
          buildParams (buildConds f ids) (tagHaving f.tags)⟩, ?_, hmem⟩
      simp [getFilteredContentCountBuild, h, hie]

theorem search_short_circuit_witness :
    getFilteredContentBuild { search := some "svelte" } [] = none
    ∧ getFilteredContentCountBuild { search := some "svelte" } [] = none :=
  (search_short_circuit { search := some "svelte" } [] rfl).1 rfl

/-! ## Claim C7 -/

theorem string_append_empty (s : String) : s ++ "" = s := by
  cases s with
  | mk data =>
    show String.mk (data ++ []) = String.mk data
    rw [List.append_nil]

theorem string_append_assoc (a b c : String) : a ++ b ++ c = a ++ (b ++ c) := by
  cases a with
  | mk da =>
    cases b with
    | mk db =>
      cases c with
      | mk dc =>
        show String.mk (da ++ db ++ dc) = String.mk (da ++ (db ++ dc))
        rw [List.append_assoc]

/-- Claim C7 counterexample: `limit` is guarded by JavaScript truthiness,
so a present but zero limit (`limit = 0`) appends no LIMIT clause and no
parameter: the build output is exactly the output for an absent limit —
the query text visibly carries no LIMIT clause — refuting "a LIMIT clause
is appended if and only if the limit filter is present". -/
theorem pagination_limit_zero_cex :
    (ContentFilters.limit { limit := some 0 }).isSome = true
    ∧ (ContentFilters.limit {}).isSome = false
    ∧ getFilteredContentBuild { limit := some 0 } [] =
        getFilteredContentBuild {} []
    ∧ getFilteredContentBuild { limit := some 0 } [] =
        some ⟨[.statusPublished], none, false, false,
          "SELECT DISTINCT c.id FROM content c WHERE c.status = 'published' ORDER BY c.published_at DESC, c.created_at DESC",
          []⟩ :=
  ⟨rfl, rfl, rfl, rfl⟩

/-- Claim C7 amended: in the list query, a LIMIT clause (with its bound
parameter) is appended iff the limit filter is present and non-zero, and
an OFFSET clause iff additionally the offset filter is present and
non-zero; a falsy limit (absent or zero) makes the whole pagination block
a no-op, so offset without limit changes neither the SQL text nor the
parameter list. -/
theorem pagination_clauses (f : ContentFilters) (ids : List String) :
    (jsTruthyNat f.limit = false →
       getFilteredContentBuild f ids =
         getFilteredContentBuild { f with limit := none, offset := none } ids)
    ∧ (∀ n, f.limit = some n → n ≠ 0 → jsTruthyNat f.offset = false →
       getFilteredContentBuild f ids =
         (getFilteredContentBuild { f with limit := none, offset := none } ids).map
           (fun bq => { bq with query := bq.query ++ " LIMIT ?",
                                params := bq.params ++ [Param.num n] }))
    ∧ (∀ n m, f.limit = some n → n ≠ 0 → f.offset = some m → m ≠ 0 →
       getFilteredContentBuild f ids =
         (getFilteredContentBuild { f with limit := none, offset := none } ids).map
           (fun bq => { bq with query := bq.query ++ " LIMIT ? OFFSET ?",
                                params := bq.params ++ [Param.num n, Param.num m] })) := by
  cases f with
  | mk se st ty tg so li of =>
    refine ⟨?_, ?_, ?_⟩
    · intro h
      simp only [getFilteredContentBuild]
      split_ifs with h1 h2 h2
      · rfl
      · exact absurd h1 h2
      · exact absurd h2 h1
      · have h' : jsTruthyNat li = false := h
        have hnone : jsTruthyNat (none : Option Nat) = false := rfl
        simp [listSql, buildConds, searchActive, paginationSql,
              paginationParams, h', hnone, string_append_empty]
    · intro n hn hn0 hof
      subst hn
      have hl : jsTruthyNat (some n) = true := by
        simp [jsTruthyNat, hn0]
      simp only [getFilteredContentBuild]
      split_ifs with h1 h2 h2
      · rfl
      · exact absurd h1 h2
      · exact absurd h2 h1
      · have hnone : jsTruthyNat (none : Option Nat) = false := rfl
        simp [Option.map, listSql, buildConds, searchActive, paginationSql,
              paginationParams, hl, hof, hnone,
              string_append_empty, string_append_assoc]
    · intro n m hn hn0 hm hm0
      subst hn
      subst hm
      have hl : jsTruthyNat (some n) = true := by
        simp [jsTruthyNat, hn0]
      have ho : jsTruthyNat (some m) = true := by
        simp [jsTruthyNat, hm0]
      simp only [getFilteredContentBuild]
      split_ifs with h1 h2 h2
      · rfl
      · exact absurd h1 h2
      · exact absurd h2 h1
      · have hs : (" LIMIT ?" ++ " OFFSET ?" : String) = " LIMIT ? OFFSET ?" := rfl
        have hnone : jsTruthyNat (none : Option Nat) = false := rfl
        simp [Option.map, listSql, buildConds, searchActive, paginationSql,
              paginationParams, hl, ho, hnone,
              string_append_empty, string_append_assoc, hs]

theorem pagination_clauses_witness :
    jsTruthyNat (ContentFilters.limit { offset := some 3 }) = false
    ∧ getFilteredContentBuild { offset := some 3 } [] =
        getFilteredContentBuild {} [] := by
  have h := (pagination_clauses { offset := some 3 } []).1 rfl
  exact ⟨rfl, h⟩

/-! ## Claim C1 -/

/-- Field view of a successful list build. -/
theorem listBuild_fields {f : ContentFilters} {ids : List String}
    {bq : BuiltQuery} (h : getFilteredContentBuild f ids = some bq) :
    bq.conds = buildConds f ids
    ∧ bq.havingCount = tagHaving f.tags
    ∧ bq.tagJoin = tagJoinOn f.tags
    ∧ bq.groupBy = tagsGroupBy f.tags
    ∧ bq.params = buildParams (buildConds f ids) (tagHaving f.tags)
        ++ paginationParams f.limit f.offset := by
  unfold getFilteredContentBuild at h
  split at h
  · simp at h
  · injection h with h'
    subst h'
    exact ⟨rfl, rfl, rfl, rfl, rfl⟩

/-- Field view of a successful count build. -/
theorem countBuild_fields {f : ContentFilters} {ids : List String}
    {bq : BuiltQuery} (h : getFilteredContentCountBuild f ids = some bq) :
    bq.conds = buildConds f ids
    ∧ bq.havingCount = tagHaving f.tags
    ∧ bq.tagJoin = tagJoinOn f.tags
    ∧ bq.groupBy = tagsGroupBy f.tags
    ∧ bq.params = buildParams (buildConds f ids) (tagHaving f.tags) := by
  unfold getFilteredContentCountBuild at h
  split at h
  · simp at h
  · injection h with h'
    subst h'
    exact ⟨rfl, rfl, rfl, rfl, rfl⟩

/-- A condition that is neither an id, type nor slug condition sits in the
full condition list exactly when the status block emits it. -/
theorem mem_buildConds_status (f : ContentFilters) (ids : List String)
    (w : WhereCond) (hw1 : ∀ l, w ≠ .idIn l) (hw2 : ∀ t, w ≠ .typeEq t)
    (hw3 : ∀ l, w ≠ .slugIn l) :
    w ∈ buildConds f ids ↔ w ∈ statusConds f.status := by
  unfold buildConds
  simp only [List.mem_append]
  constructor
  · rintro (((h | h) | h) | h)
    · exfalso
      by_cases hs : searchActive f = true
      · rw [if_pos hs] at h
        simp at h
        exact hw1 ids h
      · rw [if_neg hs] at h
        simp at h
    · exact h
    · exfalso
      unfold typeConds at h
      by_cases ht : jsTruthyStr f.type = true
      · rw [if_pos ht] at h
        simp at h
        exact hw2 _ h
      · rw [if_neg ht] at h
        simp at h
    · exfalso
      unfold tagConds at h
      by_cases hg : tagJoinOn f.tags = true
      · rw [if_pos hg] at h
        simp at h
        exact hw3 _ h
      · rw [if_neg hg] at h
        simp at h
  · intro h
    exact Or.inl (Or.inl (Or.inr h))

/-- A slug condition sits in the full condition list exactly when the tags
block emits it. -/
theorem mem_buildConds_tags (f : ContentFilters) (ids : List String)
    (l : List String) :
    WhereCond.slugIn l ∈ buildConds f ids
      ↔ WhereCond.slugIn l ∈ tagConds f.tags := by
  unfold buildConds
  simp only [List.mem_append]
  constructor
  · rintro (((h | h) | h) | h)
    · exfalso
      by_cases hs : searchActive f = true
      · rw [if_pos hs] at h
        simp at h
      · rw [if_neg hs] at h
        simp at h
    · exfalso
      unfold statusConds at h
      by_cases h1 : f.status = some "all"
      · rw [if_pos h1] at h
        simp at h
      · rw [if_neg h1] at h
        by_cases h2 : jsTruthyStr f.status = true
        · rw [if_pos h2] at h
          simp at h
        · rw [if_neg h2] at h
          simp at h
    · exfalso
      unfold typeConds at h
      by_cases ht : jsTruthyStr f.type = true
      · rw [if_pos ht] at h
        simp at h
      · rw [if_neg ht] at h
        simp at h
    · exact h
  · intro h
    exact Or.inr h

/-- A parameter pushed with a condition of the WHERE list appears in the
built parameter list. -/
theorem mem_buildParams_of_mem {conds : List WhereCond} {hc : Option Nat}
    {w : WhereCond} {p : Param} (hw : w ∈ conds) (hp : p ∈ w.boundParams) :
    p ∈ buildParams conds hc := by
  unfold buildParams
  refine List.mem_append.mpr (Or.inl ?_)
  exact List.mem_flatten.mpr ⟨w.boundParams, List.mem_map.mpr ⟨w, hw, rfl⟩, hp⟩

/-- Claim C1 counterexample: the status guard is JavaScript truthiness, so
the present-but-empty status string — an explicit value other than the
sentinel `'all'` — does not produce an exact-match predicate: both
builders emit the published-only predicate instead, refuting "when status
is any other explicit value the query restricts to rows whose status
equals exactly that value". -/
theorem statusFilter_empty_string_cex :
    (getFilteredContentBuild { status := some "" } []).map BuiltQuery.conds =
        some [WhereCond.statusPublished]
    ∧ (getFilteredContentCountBuild { status := some "" } []).map
        BuiltQuery.conds = some [WhereCond.statusPublished]
    ∧ ContentFilters.status { status := some "" } = some ""
    ∧ ("" : String) ≠ "all"
    ∧ WhereCond.statusEq "" ∉ [WhereCond.statusPublished] :=
  ⟨rfl, rfl, rfl, by decide, by decide⟩

/-- Claim C1 amended: in both builders the status predicate is a three-way
switch on truthiness: a falsy status (absent or the empty string) emits
the fixed `c.status = 'published'` predicate; the sentinel `'all'` emits
no status predicate at all; any other non-empty value emits
`c.status = ?` bound to exactly that value. -/
theorem statusFilter_three_way (f : ContentFilters) (ids : List String)
    (bq bqc : BuiltQuery)
    (hl : getFilteredContentBuild f ids = some bq)
    (hc : getFilteredContentCountBuild f ids = some bqc) :
    ((f.status = none ∨ f.status = some "") →
       (WhereCond.statusPublished ∈ bq.conds
        ∧ (∀ s, WhereCond.statusEq s ∉ bq.conds)
        ∧ WhereCond.statusPublished ∈ bqc.conds
        ∧ (∀ s, WhereCond.statusEq s ∉ bqc.conds)))
    ∧ (f.status = some "all" →
       (WhereCond.statusPublished ∉ bq.conds
        ∧ (∀ s, WhereCond.statusEq s ∉ bq.conds)
        ∧ WhereCond.statusPublished ∉ bqc.conds
        ∧ (∀ s, WhereCond.statusEq s ∉ bqc.conds)))
    ∧ (∀ s, f.status = some s → s ≠ "all" → s ≠ "" →
       (WhereCond.statusEq s ∈ bq.conds
        ∧ WhereCond.statusPublished ∉ bq.conds
        ∧ Param.str s ∈ bq.params
        ∧ WhereCond.statusEq s ∈ bqc.conds
        ∧ WhereCond.statusPublished ∉ bqc.conds
        ∧ Param.str s ∈ bqc.params)) := by
  obtain ⟨hbc, -, -, -, hbp⟩ := listBuild_fields hl
  obtain ⟨hcc, -, -, -, hcp⟩ := countBuild_fields hc
  refine ⟨?_, ?_, ?_⟩
  · intro h
    have hs : statusConds f.status = [WhereCond.statusPublished] := by
      rcases h with h | h <;> simp [statusConds, h, jsTruthyStr]
    have hpub : WhereCond.statusPublished ∈ buildConds f ids :=
      (mem_buildConds_status f ids _ (by simp) (by simp) (by simp)).mpr
        (by simp [hs])
    have hne : ∀ s, WhereCond.statusEq s ∉ buildConds f ids := by
      intro s hmem
      have := (mem_buildConds_status f ids (.statusEq s)
        (by simp) (by simp) (by simp)).mp hmem
      rw [hs] at this
      simp at this
    exact ⟨hbc ▸ hpub, fun s => hbc ▸ hne s, hcc ▸ hpub, fun s => hcc ▸ hne s⟩
  · intro h
    have hs : statusConds f.status = [] := by simp [statusConds, h]
    have hpub : WhereCond.statusPublished ∉ buildConds f ids := by
      intro hmem
      have := (mem_buildConds_status f ids _
        (by simp) (by simp) (by simp)).mp hmem
      rw [hs] at this
      simp at this
    have hne : ∀ s, WhereCond.statusEq s ∉ buildConds f ids := by
      intro s hmem
      have := (mem_buildConds_status f ids (.statusEq s)
        (by simp) (by simp) (by simp)).mp hmem
      rw [hs] at this
      simp at this
    exact ⟨hbc ▸ hpub, fun s => hbc ▸ hne s, hcc ▸ hpub, fun s => hcc ▸ hne s⟩
  · intro s h hall hne
    have hjt : jsTruthyStr (some s) = true := by simp [jsTruthyStr, hne]
    have hs : statusConds f.status = [WhereCond.statusEq s] := by
      simp [statusConds, h, hall, jsTruthyStr, hne]
    have heq : WhereCond.statusEq s ∈ buildConds f ids :=
      (mem_buildConds_status f ids _ (by simp) (by simp) (by simp)).mpr
        (by simp [hs])
    have hpub : WhereCond.statusPublished ∉ buildConds f ids := by
      intro hmem
      have := (mem_buildConds_status f ids _
        (by simp) (by simp) (by simp)).mp hmem
      rw [hs] at this
      simp at this
    have hpar : ∀ hcOpt, Param.str s ∈ buildParams (buildConds f ids) hcOpt :=
      fun hcOpt => mem_buildParams_of_mem heq (by simp [WhereCond.boundParams])
    refine ⟨hbc ▸ heq, hbc ▸ hpub, ?_, hcc ▸ heq, hcc ▸ hpub, ?_⟩
    · rw [hbp]
      exact List.mem_append.mpr (Or.inl (hpar _))
    · rw [hcp]
      exact hpar _

/-- The build output for an all-default filter, list variant. -/
def bqDefaultList : BuiltQuery :=
  ⟨[.statusPublished], none, false, false,
   "SELECT DISTINCT c.id FROM content c WHERE c.status = 'published' ORDER BY c.published_at DESC, c.created_at DESC",
   []⟩

/-- The build output for an all-default filter, count variant. -/
def bqDefaultCount : BuiltQuery :=
  ⟨[.statusPublished], none, false, false,
   "SELECT COUNT(DISTINCT c.id) as total FROM content c WHERE c.status = 'published'",
   []⟩

theorem statusFilter_three_way_witness :
    getFilteredContentBuild {} [] = some bqDefaultList
    ∧ WhereCond.statusPublished ∈ bqDefaultList.conds
    ∧ WhereCond.statusPublished ∈ bqDefaultCount.conds := by
  have h := statusFilter_three_way {} [] bqDefaultList bqDefaultCount rfl rfl
  exact ⟨rfl, (h.1 (Or.inl rfl)).1, (h.1 (Or.inl rfl)).2.2.1⟩

/-! ## Claim C2 -/

/-- The parameter list of a build whose tags filter is a list of more than
one slug decomposes as: parameters of the earlier blocks, then the slugs
in order, then the tag count bound to the HAVING placeholder. -/
theorem buildParams_tags_decomp (f : ContentFilters) (ids : List String)
    (l : List String) (hftags : f.tags = some (.many l))
    (hlen : 1 < l.length) :
    ∃ pre, buildParams (buildConds f ids) (tagHaving f.tags) =
      pre ++ l.map Param.str ++ [Param.num l.length] := by
  have hne0 : l ≠ [] := by
    intro h
    subst h
    simp at hlen
  have hjoin : tagJoinOn f.tags = true := by
    simp [tagJoinOn, tagsTruthy, normTags, hftags, hne0]
  have htc : tagConds f.tags = [WhereCond.slugIn l] := by
    unfold tagConds
    rw [if_pos hjoin]
    simp [normTags, hftags]
  have hhv : tagHaving f.tags = some l.length := by
    simp [tagHaving, tagsTruthy, normTags, hftags, hlen]
  refine ⟨(((if searchActive f then [WhereCond.idIn ids] else [])
      ++ statusConds f.status ++ typeConds f.type).map
        WhereCond.boundParams).flatten, ?_⟩
  rw [hhv]
  unfold buildConds
  rw [htc]
  simp [buildParams, List.map_append, List.flatten_append,
        List.append_assoc, WhereCond.boundParams]

/-- Claim C2: in both builders, a tags filter naming more than one slug
adds the `content_to_tags` / `tags` join, the `t.slug IN (...)` condition
over the slugs, the `GROUP BY c.id` grouping and the
`HAVING COUNT(DISTINCT t.slug) = ?` condition bound to the number of
slugs, with the slug parameters immediately followed by that count; a
single slug — a bare string or a one-element list — adds the same join
and IN condition but no grouping and no HAVING condition. -/
theorem tagsFilter_intersection (f : ContentFilters) (ids : List String)
    (bq bqc : BuiltQuery)
    (hl : getFilteredContentBuild f ids = some bq)
    (hc : getFilteredContentCountBuild f ids = some bqc) :
    (∀ l, f.tags = some (.many l) → 1 < l.length →
       (bq.tagJoin = true ∧ WhereCond.slugIn l ∈ bq.conds
        ∧ bq.groupBy = true ∧ bq.havingCount = some l.length
        ∧ (∃ pre post, bq.params =
            pre ++ l.map Param.str ++ Param.num l.length :: post)
        ∧ bqc.tagJoin = true ∧ WhereCond.slugIn l ∈ bqc.conds
        ∧ bqc.groupBy = true ∧ bqc.havingCount = some l.length
        ∧ (∃ pre, bqc.params =
            pre ++ l.map Param.str ++ [Param.num l.length])))
    ∧ (∀ s, f.tags = some (.one s) → s ≠ "" →
       (bq.tagJoin = true ∧ WhereCond.slugIn [s] ∈ bq.conds
        ∧ bq.groupBy = false ∧ bq.havingCount = none
        ∧ bqc.tagJoin = true ∧ WhereCond.slugIn [s] ∈ bqc.conds
        ∧ bqc.groupBy = false ∧ bqc.havingCount = none))
    ∧ (∀ s, f.tags = some (.many [s]) →
       (bq.tagJoin = true ∧ WhereCond.slugIn [s] ∈ bq.conds
        ∧ bq.groupBy = false ∧ bq.havingCount = none
        ∧ bqc.tagJoin = true ∧ WhereCond.slugIn [s] ∈ bqc.conds
        ∧ bqc.groupBy = false ∧ bqc.havingCount = none)) := by
  obtain ⟨hbc, hbh, hbt, hbg, hbp⟩ := listBuild_fields hl
  obtain ⟨hcc, hch, hct, hcg, hcp⟩ := countBuild_fields hc
  refine ⟨?_, ?_, ?_⟩
  · intro l hftags hlen
    have hne0 : l ≠ [] := by
      intro h
      subst h
      simp at hlen
    have hjoin : tagJoinOn f.tags = true := by
      simp [tagJoinOn, tagsTruthy, normTags, hftags, hne0]
    have htc : tagConds f.tags = [WhereCond.slugIn l] := by
      unfold tagConds
      rw [if_pos hjoin]
      simp [normTags, hftags]
    have hhv : tagHaving f.tags = some l.length := by
      simp [tagHaving, tagsTruthy, normTags, hftags, hlen]
    have hgb : tagsGroupBy f.tags = true := by
      simp [tagsGroupBy, hftags, hlen]
    have hmem : WhereCond.slugIn l ∈ buildConds f ids :=
      (mem_buildConds_tags f ids l).mpr (by simp [htc])
    obtain ⟨pre, hdec⟩ := buildParams_tags_decomp f ids l hftags hlen
    refine ⟨hbt ▸ hjoin, hbc ▸ hmem, hbg ▸ hgb, hbh ▸ hhv,
            ⟨pre, paginationParams f.limit f.offset, ?_⟩,
            hct ▸ hjoin, hcc ▸ hmem, hcg ▸ hgb, hch ▸ hhv,
            ⟨pre, by rw [hcp, hdec]⟩⟩
    rw [hbp, hdec]
    simp [List.append_assoc]
  · intro s hftags hne
    have hjoin : tagJoinOn f.tags = true := by
      simp [tagJoinOn, tagsTruthy, normTags, hftags, hne]
    have htc : tagConds f.tags = [WhereCond.slugIn [s]] := by
      unfold tagConds
      rw [if_pos hjoin]
      simp [normTags, hftags]
    have hhv : tagHaving f.tags = none := by
      simp [tagHaving, tagsTruthy, normTags, hftags]
    have hgb : tagsGroupBy f.tags = false := by
      simp [tagsGroupBy, hftags]
    have hmem : WhereCond.slugIn [s] ∈ buildConds f ids :=
      (mem_buildConds_tags f ids [s]).mpr (by simp [htc])
    exact ⟨hbt ▸ hjoin, hbc ▸ hmem, hbg ▸ hgb, hbh ▸ hhv,
           hct ▸ hjoin, hcc ▸ hmem, hcg ▸ hgb, hch ▸ hhv⟩
  · intro s hftags
    have hjoin : tagJoinOn f.tags = true := by
      simp [tagJoinOn, tagsTruthy, normTags, hftags]
    have htc : tagConds f.tags = [WhereCond.slugIn [s]] := by
      unfold tagConds
      rw [if_pos hjoin]
      simp [normTags, hftags]
    have hhv : tagHaving f.tags = none := by
      simp [tagHaving, tagsTruthy, normTags, hftags]
    have hgb : tagsGroupBy f.tags = false := by
      simp [tagsGroupBy, hftags]
    have hmem : WhereCond.slugIn [s] ∈ buildConds f ids :=
      (mem_buildConds_tags f ids [s]).mpr (by simp [htc])
    exact ⟨hbt ▸ hjoin, hbc ▸ hmem, hbg ▸ hgb, hbh ▸ hhv,
           hct ▸ hjoin, hcc ▸ hmem, hcg ▸ hgb, hch ▸ hhv⟩

/-- The build output for a two-tag filter, list variant. -/
def bqTwoTagsList : BuiltQuery :=
  ⟨[.statusPublished, .slugIn ["a", "b"]], some 2, true, true,
   "SELECT DISTINCT c.id FROM content c JOIN content_to_tags ctt ON c.id = ctt.content_id JOIN tags t ON ctt.tag_id = t.id WHERE c.status = 'published' AND t.slug IN (?,?) GROUP BY c.id HAVING COUNT(DISTINCT t.slug) = ? ORDER BY c.published_at DESC, c.created_at DESC",
   [.str "a", .str "b", .num 2]⟩

/-- The build output for a two-tag filter, count variant. -/
def bqTwoTagsCount : BuiltQuery :=
  ⟨[.statusPublished, .slugIn ["a", "b"]], some 2, true, true,
   "SELECT COUNT(*) as total FROM (SELECT COUNT(DISTINCT c.id) as total FROM content c JOIN content_to_tags ctt ON c.id = ctt.content_id JOIN tags t ON ctt.tag_id = t.id WHERE c.status = 'published' AND t.slug IN (?,?) GROUP BY c.id HAVING COUNT(DISTINCT t.slug) = ?)",
   [.str "a", .str "b", .num 2]⟩

theorem tagsFilter_intersection_witness :
    getFilteredContentBuild { tags := some (.many ["a", "b"]) } [] =
        some bqTwoTagsList
    ∧ bqTwoTagsList.havingCount = some 2
    ∧ bqTwoTagsCount.groupBy = true := by
  have h := tagsFilter_intersection { tags := some (.many ["a", "b"]) } []
    bqTwoTagsList bqTwoTagsCount rfl rfl
  have h2 := h.1 ["a", "b"] rfl (by decide)
  exact ⟨rfl, h2.2.2.2.1, h2.2.2.2.2.2.2.2.1⟩

/-! ## Claim C6 -/

theorem hydrateChild_isSome (db : DB) (c : String) :
    (hydrateChild db c).isSome =
      (db.content.find? (fun r => r.id == c)).isSome := by
  unfold hydrateChild
  cases db.content.find? (fun r => r.id == c) <;> rfl

theorem hydrateChild_row_id {db : DB} {c : String} {a : Aggregate}
    (h : hydrateChild db c = some a) : a.row.id = c := by
  unfold hydrateChild at h
  cases hf : db.content.find? (fun r => r.id == c) with
  | none => rw [hf] at h; cases h
  | some row =>
    rw [hf] at h
    injection h with h'
    have hrid : row.id = c := by simpa using List.find?_some hf
    rw [← h']
    simpa [Aggregate.row] using hrid

/-- Claim C6: resolving a collection whose stored children field lists N
identifiers of which M still resolve returns an aggregate carrying exactly
the M resolvable children, in the original relative order; each child
carries its own tags and an empty children list, and unresolvable
identifiers are silently dropped without failing the whole resolve. -/
theorem collection_children_resolution (db : DB) (id : String)
    (row : ContentRow) (cids : List String)
    (hid : id ≠ "")
    (hfind : db.content.find? (fun c => c.id == id) = some row)
    (htype : row.type = "collection")
    (hch : row.children = .listStr cids)
    (hne : cids ≠ []) :
    getContentById db id =
      some (.mk row (tagsFor db id)
        (.resolved (cids.filterMap (hydrateChild db))))
    ∧ (cids.filterMap (hydrateChild db)).length =
        (cids.filter
          (fun c => (db.content.find? (fun r => r.id == c)).isSome)).length
    ∧ (cids.filterMap (hydrateChild db)).length ≤ cids.length
    ∧ (∀ a ∈ cids.filterMap (hydrateChild db),
        a.tags = tagsFor db a.row.id ∧ a.children = ChildrenVal.resolved [])
    ∧ (cids.filterMap (hydrateChild db)).map (fun a => a.row.id) =
        cids.filter
          (fun c => (db.content.find? (fun r => r.id == c)).isSome) := by
  have hie : cids.isEmpty = false := by
    cases cids with
    | nil => exact absurd rfl hne
    | cons a t => rfl
  have hrc : (resolveChildren db row).2 =
      ChildrenVal.resolved (cids.filterMap (hydrateChild db)) := by
    unfold resolveChildren
    rw [htype, hch]
    simp [hie]
  refine ⟨?_, ?_, ?_, ?_, ?_⟩
  · unfold getContentById getContentByIdRun
    rw [if_neg hid, hfind]
    show some (Aggregate.mk row (tagsFor db id) (resolveChildren db row).2) = _
    rw [hrc]
  · rw [length_filterMap_eq_length_filter]
    congr 1
    apply List.filter_congr
    intro c hc
    exact hydrateChild_isSome db c
  · exact length_filterMap_le _ _
  · intro a ha
    rcases List.mem_filterMap.mp ha with ⟨c, hc, hsome⟩
    have hrid : a.row.id = c := hydrateChild_row_id hsome
    unfold hydrateChild at hsome
    cases hf : db.content.find? (fun r => r.id == c) with
    | none => rw [hf] at hsome; cases hsome
    | some r =>
      rw [hf] at hsome
      injection hsome with h'
      constructor
      · rw [← h']
        have hrid2 : r.id = c := by simpa using List.find?_some hf
        simp [Aggregate.tags, Aggregate.row, hrid2]
      · rw [← h']
        rfl
  · rw [map_rowid_filterMap (hydrateChild db)
      (fun c a h => hydrateChild_row_id h) cids]
    apply List.filter_congr
    intro c hc
    exact hydrateChild_isSome db c

/-- A tag row used by the witness database. -/
def tagAlpha : Tag := ⟨1, "Alpha", "alpha"⟩

/-- A published article child used by the witness database. -/
def rowChildA : ContentRow :=
  { id := "a", title := "A", slug := "a", description := "",
    type := "article", status := "published", body := "",
    children := .notString, created_at := "T0", updated_at := "T0",
    published_at := some "T0", likes := 0, saves := 0 }

/-- A second child used by the witness database. -/
def rowChildB : ContentRow :=
  { id := "b", title := "B", slug := "b", description := "",
    type := "article", status := "published", body := "",
    children := .notString, created_at := "T0", updated_at := "T0",
    published_at := some "T0", likes := 0, saves := 0 }

/-- A collection listing two surviving children and one dangling id. -/
def rowColl : ContentRow :=
  { id := "p", title := "P", slug := "p", description := "",
    type := "collection", status := "published", body := "",
    children := .listStr ["a", "m", "b"], created_at := "T0",
    updated_at := "T0", published_at := some "T0", likes := 0, saves := 0 }

/-- The witness database. -/
def dbEx : DB := ⟨[rowColl, rowChildA, rowChildB], [tagAlpha], [("a", 1)]⟩

theorem collection_children_resolution_witness :
    getContentById dbEx "p" =
      some (.mk rowColl (tagsFor dbEx "p")
        (.resolved (["a", "m", "b"].filterMap (hydrateChild dbEx))))
    ∧ (["a", "m", "b"].filterMap (hydrateChild dbEx)).length ≤ 3
    ∧ (["a", "m", "b"].filterMap (hydrateChild dbEx)).map
        (fun a => a.row.id) = ["a", "b"] := by
  have h := collection_children_resolution dbEx "p" rowColl ["a", "m", "b"]
    (by decide) rfl rfl rfl (by decide)
  refine ⟨h.1, h.2.2.1, ?_⟩
  rw [h.2.2.2.2]
  rfl

end SvelteSociety
